import Mathlib

/-!
Verification of the size-targeting re-encoder of `src/routes/generate.js`
(the `generateImage` handler's PNG→JPG conversion block, lines 1360–1437).

The loop repeatedly encodes a source image at a current `(width, quality)`
pair and adjusts the pair until the encoded byte size falls inside the
target range `[MIN_SIZE, MAX_SIZE]`, for at most 25 iterations.  The encode
step itself (the `sharp` resize/JPEG call) is external to the repository and
is modelled abstractly, as the spec directs, by a deterministic function
`enc : Nat → Nat → List Nat` giving the bytes produced by encoding the
(fixed) source at a given width and quality.  The target bounds are kept as
parameters `minB`, `maxB` so that properties quantified over target ranges
can be stated; the source instantiates them with `MIN_SIZE`/`MAX_SIZE`.
-/

namespace ModelStudio

/-- The loop-local mutable variables `width` and `quality` of the search
loop (declared at lines 1361–1362 of `generate.js`). -/
structure LoopState where
  width : Nat
  quality : Nat
  deriving DecidableEq

/-- `MIN_SIZE = 1 * 1024 * 1024` (1 MiB), line 1357. -/
def MIN_SIZE : Nat := 1 * 1024 * 1024

/-- `MAX_SIZE = 3 * 1024 * 1024` (3 MiB), line 1358. -/
def MAX_SIZE : Nat := 3 * 1024 * 1024

/-- Starting width `2800`, line 1361. -/
def START_WIDTH : Nat := 2800

/-- Starting quality `94`, line 1362. -/
def START_QUALITY : Nat := 94

/-- The iteration bound of the `for (let i = 0; i < 25; i++)` loop. -/
def MAX_ITER : Nat := 25

/-- The state on entry to the loop. -/
def initState : LoopState := ⟨START_WIDTH, START_QUALITY⟩

/-- The parameter adjustment performed at the end of a loop iteration whose
encoded size was out of range (lines 1393–1411): if the size is below the
minimum, grow width by 250 and quality by 2 capped at 98; if the size is
above the maximum, drop quality by 4 while it is above 85, otherwise drop
width by 250; finally clamp quality to at least 80 and width to at least
2000.  The two directional `if`s are sequential (not `else if`) exactly as
in the source. -/
def adjust (minB maxB : Nat) (s : LoopState) (size : Nat) : LoopState :=
  let s1 := if size < minB then
      LoopState.mk (s.width + 250) (min (s.quality + 2) 98)
    else s
  let s2 := if maxB < size then
      (if 85 < s1.quality then LoopState.mk s1.width (s1.quality - 4)
       else LoopState.mk (s1.width - 250) s1.quality)
    else s1
  LoopState.mk (if s2.width < 2000 then 2000 else s2.width)
    (if s2.quality < 80 then 80 else s2.quality)

/-- One iteration of the search viewed as a transition on the loop state:
encode at the current parameters; if the size is in range the loop breaks,
so the state is left unchanged from then on; otherwise the parameters are
adjusted (lines 1368–1412). -/
def stepState (enc : Nat → Nat → List Nat) (minB maxB : Nat)
    (s : LoopState) : LoopState :=
  let size := (enc s.width s.quality).length
  if minB ≤ size ∧ size ≤ maxB then s else adjust minB maxB s size

/-- The `(width, quality)` pair held by the loop variables at the start of
iteration `i` (or frozen at its final value once the loop has broken). -/
def stateAt (enc : Nat → Nat → List Nat) (minB maxB : Nat) : Nat → LoopState
  | 0 => initState
  | i + 1 => stepState enc minB maxB (stateAt enc minB maxB i)

/-- The encoded size measured at iteration `i`. -/
def sizeAt (enc : Nat → Nat → List Nat) (minB maxB : Nat) (i : Nat) : Nat :=
  (enc (stateAt enc minB maxB i).width (stateAt enc minB maxB i).quality).length

/-- A JSON error body `{ error: ... }` as returned by the handler's 500
responses. -/
structure ErrorResponse where
  error : String
  deriving DecidableEq

/-- The error body returned when the final size check fails
(lines 1434–1436). -/
def sizeLockFailureResponse : ErrorResponse :=
  ⟨"Failed to generate image within 1–3 MB size constraints"⟩

/-- The error body returned by the handler's catch-all block (line 1477),
which is where an undecodable source image (a throw from the `sharp`
pipeline) lands. -/
def decodeFailureResponse : ErrorResponse :=
  ⟨"Failed to generate image."⟩

/-- The success payload: the returned JPEG bytes together with
`debugInfo.finalWidth` and `debugInfo.finalQuality` (lines 1447–1451). -/
structure GenSuccess where
  imageBytes : List Nat
  finalWidth : Nat
  finalQuality : Nat
  deriving DecidableEq

/-- The search loop (lines 1368–1412).  `rem` is the number of iterations
still allowed after the current one; each iteration encodes at the current
parameters, breaks if the size is in range, and otherwise adjusts the
parameters.  Returns the loop variables after exit, the last `jpgBuffer`,
and the number of encode attempts performed.  On exhaustion the state is
the post-adjustment one, exactly as the JS loop leaves `width`/`quality`
adjusted after its final iteration. -/
def loopGo (enc : Nat → Nat → List Nat) (minB maxB : Nat) :
    Nat → LoopState → LoopState × List Nat × Nat
  | 0, s =>
    let buf := enc s.width s.quality
    let size := buf.length
    if minB ≤ size ∧ size ≤ maxB then (s, buf, 1)
    else (adjust minB maxB s size, buf, 1)
  | r + 1, s =>
    let buf := enc s.width s.quality
    let size := buf.length
    if minB ≤ size ∧ size ≤ maxB then (s, buf, 1)
    else
      let out := loopGo enc minB maxB r (adjust minB maxB s size)
      (out.1, out.2.1, out.2.2 + 1)

/-- The conversion block with its final validation (lines 1360–1462): run
the search loop from the starting parameters, then re-check the last
buffer's size; return the 500 error body if it is out of range, and
otherwise the success payload carrying the buffer and the final
width/quality.  The second component counts encode attempts. -/
def generateImage (enc : Nat → Nat → List Nat) (minB maxB : Nat) :
    Except ErrorResponse GenSuccess × Nat :=
  let out := loopGo enc minB maxB (MAX_ITER - 1) initState
  let buf := out.2.1
  if buf.length < minB ∨ maxB < buf.length then
    (Except.error sizeLockFailureResponse, out.2.2)
  else
    (Except.ok ⟨buf, out.1.width, out.1.quality⟩, out.2.2)

/-- The concrete instantiation used by the handler: target range
1 MiB – 3 MiB. -/
def generateImageCode (enc : Nat → Nat → List Nat) :
    Except ErrorResponse GenSuccess × Nat :=
  generateImage enc MIN_SIZE MAX_SIZE

/-- A source model whose every encode is 3 bytes: always oversized for a
target range with `maxB < 3`. -/
def encBig : Nat → Nat → List Nat := fun _ _ => [0, 0, 0]

/-- A source model whose every encode is empty: always undersized for a
target range with `1 ≤ minB`. -/
def encSmall : Nat → Nat → List Nat := fun _ _ => []

/-- A source model whose every encode is a single byte: in range for the
target range `[1, 2]` already at the starting parameters. -/
def encOne : Nat → Nat → List Nat := fun _ _ => [0]

/-- Helper invariant: one `adjust` pass keeps quality in `[82, 98]` (given
it was there) and forces width to at least 2000. -/
theorem adjust_bounds (minB maxB : Nat) (s : LoopState) (size : Nat)
    (h1 : 82 ≤ s.quality) (h2 : s.quality ≤ 98) :
    82 ≤ (adjust minB maxB s size).quality ∧ (adjust minB maxB s size).quality ≤ 98 ∧
      2000 ≤ (adjust minB maxB s size).width := by
  unfold adjust
  dsimp only
  split_ifs <;> simp_all <;> omega

/-- Helper: an undersized adjustment (with a well-formed target range)
never decreases width, and never decreases quality when quality is at most
the 98 ceiling. -/
theorem adjust_undersized (minB maxB : Nat) (s : LoopState) (size : Nat)
    (h2 : s.quality ≤ 98) (hsmall : size < minB) (hrange : minB ≤ maxB) :
    s.width ≤ (adjust minB maxB s size).width ∧
      s.quality ≤ (adjust minB maxB s size).quality := by
  unfold adjust
  dsimp only
  have hnotbig : ¬ maxB < size := by omega
  split_ifs <;> simp_all <;> omega

/-- Helper: an oversized adjustment (with a well-formed target range)
reduces quality by 4 and leaves width unchanged while quality is above 85,
and otherwise leaves quality unchanged and reduces width by 250 clamped to
the 2000 floor. -/
theorem adjust_oversized (minB maxB : Nat) (s : LoopState) (size : Nat)
    (hq1 : 82 ≤ s.quality) (hw : 2000 ≤ s.width)
    (hbig : maxB < size) (hrange : minB ≤ maxB) :
    (85 < s.quality →
      (adjust minB maxB s size).quality = s.quality - 4 ∧
        (adjust minB maxB s size).width = s.width) ∧
    (s.quality ≤ 85 →
      (adjust minB maxB s size).quality = s.quality ∧
        (adjust minB maxB s size).width =
          (if s.width - 250 < 2000 then 2000 else s.width - 250)) := by
  unfold adjust
  dsimp only
  have hnotsmall : ¬ size < minB := by omega
  split_ifs <;> simp_all <;> omega

/-- Helper invariant: every reachable loop state has quality in `[82, 98]`
and width at least 2000. -/
theorem stateAt_bounds (enc : Nat → Nat → List Nat) (minB maxB : Nat) (i : Nat) :
    82 ≤ (stateAt enc minB maxB i).quality ∧ (stateAt enc minB maxB i).quality ≤ 98 ∧
      2000 ≤ (stateAt enc minB maxB i).width := by
  induction i with
  | zero =>
    show 82 ≤ initState.quality ∧ initState.quality ≤ 98 ∧ 2000 ≤ initState.width
    decide
  | succ i ih =>
    have h : stateAt enc minB maxB (i + 1)
        = stepState enc minB maxB (stateAt enc minB maxB i) := rfl
    rw [h]
    unfold stepState
    dsimp only
    split
    · exact ih
    · exact adjust_bounds _ _ _ _ ih.1 ih.2.1

/-- Helper: if the encode at the current state is already in range, the
loop breaks immediately with that buffer after one attempt, whatever the
remaining budget. -/
theorem loopGo_break (enc : Nat → Nat → List Nat) (minB maxB rem : Nat) (s : LoopState)
    (h : minB ≤ (enc s.width s.quality).length ∧ (enc s.width s.quality).length ≤ maxB) :
    loopGo enc minB maxB rem s = (s, enc s.width s.quality, 1) := by
  cases rem <;> simp only [loopGo, if_pos h]

/-- Helper: the loop performs at most `rem + 1` encode attempts. -/
theorem loopGo_attempts (enc : Nat → Nat → List Nat) (minB maxB : Nat) :
    ∀ rem s, (loopGo enc minB maxB rem s).2.2 ≤ rem + 1 := by
  intro rem
  induction rem with
  | zero =>
    intro s
    unfold loopGo
    dsimp only
    split <;> simp
  | succ r ih =>
    intro s
    unfold loopGo
    dsimp only
    split
    · simp
    · dsimp only
      have := ih (adjust minB maxB s (enc s.width s.quality).length)
      omega

/-- Helper: if every possible encode is oversized, the buffer the loop
exits with is oversized as well. -/
theorem loopGo_oversized (enc : Nat → Nat → List Nat) (minB maxB : Nat)
    (hall : ∀ w q, maxB < (enc w q).length) :
    ∀ rem s, maxB < (loopGo enc minB maxB rem s).2.1.length := by
  intro rem
  induction rem with
  | zero =>
    intro s
    unfold loopGo
    dsimp only
    rw [if_neg (by have := hall s.width s.quality; omega)]
    exact hall s.width s.quality
  | succ r ih =>
    intro s
    unfold loopGo
    dsimp only
    rw [if_neg (by have := hall s.width s.quality; omega)]
    exact ih _

/-- Helper: when the loop exits with an in-range buffer, that buffer is
exactly the encode at the exit state's width and quality (the loop broke
before adjusting). -/
theorem loopGo_inrange_encodes (enc : Nat → Nat → List Nat) (minB maxB : Nat) :
    ∀ rem s, minB ≤ (loopGo enc minB maxB rem s).2.1.length →
      (loopGo enc minB maxB rem s).2.1.length ≤ maxB →
      (loopGo enc minB maxB rem s).2.1 =
        enc (loopGo enc minB maxB rem s).1.width (loopGo enc minB maxB rem s).1.quality := by
  intro rem
  induction rem with
  | zero =>
    intro s
    by_cases hc : minB ≤ (enc s.width s.quality).length ∧ (enc s.width s.quality).length ≤ maxB
    · simp only [loopGo, if_pos hc]
      intro _ _
      trivial
    · simp only [loopGo, if_neg hc]
      intro h1 h2
      exact absurd ⟨h1, h2⟩ hc
  | succ r ih =>
    intro s
    by_cases hc : minB ≤ (enc s.width s.quality).length ∧ (enc s.width s.quality).length ≤ maxB
    · simp only [loopGo, if_pos hc]
      intro _ _
      trivial
    · simp only [loopGo, if_neg hc]
      exact ih _

/-- C1: whenever the re-encode operation returns an image (rather than the
size-lock error body), the returned bytes' size lies inside the target
range `[minB, maxB]`: the final validation after the loop re-checks the
last buffer and diverts every out-of-range outcome to the error return. -/
theorem C1_success_always_in_range (enc : Nat → Nat → List Nat) (minB maxB : Nat)
    (r : GenSuccess) (n : Nat)
    (h : generateImage enc minB maxB = (Except.ok r, n)) :
    minB ≤ r.imageBytes.length ∧ r.imageBytes.length ≤ maxB := by
  unfold generateImage at h
  dsimp only at h
  split at h
  · exact absurd h (by simp)
  · rename_i hcond
    simp only [Prod.mk.injEq, Except.ok.injEq] at h
    obtain ⟨h1, -⟩ := h
    subst h1
    dsimp only
    omega

/-- C1 witness: with a source whose every encode is one byte and the target
range `[1, 2]`, the operation succeeds and the returned size is in range. -/
theorem C1_success_always_in_range_witness :
    1 ≤ (GenSuccess.mk [0] 2800 94).imageBytes.length ∧
      (GenSuccess.mk [0] 2800 94).imageBytes.length ≤ 2 :=
  C1_success_always_in_range encOne 1 2 (GenSuccess.mk [0] 2800 94) 1 rfl

set_option maxRecDepth 4000 in
/-- C2 counterexample: the always-oversized and always-undersized sources
exhaust the budget with different last buffers (3 bytes versus 0 bytes) and
different final widths, yet the failure output returned to the caller is
the very same fixed error body in both runs — so that output carries no
last-attempted sizeBytes, width or quality at all, contrary to the claim
that the ConvergenceError failure carries them for diagnostics. -/
theorem C2_no_diagnostics_counterexample :
    (generateImage encBig 1 2).1 = Except.error sizeLockFailureResponse ∧
      (generateImage encSmall 1 2).1 = Except.error sizeLockFailureResponse ∧
      (loopGo encBig 1 2 (MAX_ITER - 1) initState).2.1.length ≠
        (loopGo encSmall 1 2 (MAX_ITER - 1) initState).2.1.length ∧
      (loopGo encBig 1 2 (MAX_ITER - 1) initState).1.width ≠
        (loopGo encSmall 1 2 (MAX_ITER - 1) initState).1.width ∧
      (generateImage encBig 1 2).1 = (generateImage encSmall 1 2).1 :=
  ⟨rfl, rfl, by decide, by decide, rfl⟩

/-- C2 (amended): when the search exhausts its budget without reaching the
target range, the caller receives only the fixed error body "Failed to
generate image within 1–3 MB size constraints", with no diagnostic fields
(the last size and the post-adjustment width/quality are only written to
the server log); this failure is nonetheless distinct from the catch-all
failure body produced by an undecodable source image. -/
theorem C2_failure_fixed_and_distinct (enc : Nat → Nat → List Nat) (minB maxB : Nat)
    (e : ErrorResponse) (n : Nat)
    (h : generateImage enc minB maxB = (Except.error e, n)) :
    e = sizeLockFailureResponse ∧ e ≠ decodeFailureResponse := by
  have he : e = sizeLockFailureResponse := by
    unfold generateImage at h
    dsimp only at h
    split at h
    · simp only [Prod.mk.injEq, Except.error.injEq] at h
      exact h.1.symm
    · exact absurd h (by simp)
  exact ⟨he, by rw [he]; decide⟩

set_option maxRecDepth 4000 in
/-- C2 witness: the always-oversized source fails after 25 attempts with
exactly the fixed size-lock error body, which differs from the catch-all
decode-failure body. -/
theorem C2_failure_fixed_and_distinct_witness :
    sizeLockFailureResponse = sizeLockFailureResponse ∧
      sizeLockFailureResponse ≠ decodeFailureResponse :=
  C2_failure_fixed_and_distinct encBig 1 2 sizeLockFailureResponse 25 rfl

/-- C3: across all iterations, for every source and target range, quality
never goes below the 80 floor nor above the 98 ceiling, and width never
goes below the 2000 floor. -/
theorem C3_clamp_bounds (enc : Nat → Nat → List Nat) (minB maxB i : Nat) :
    80 ≤ (stateAt enc minB maxB i).quality ∧ (stateAt enc minB maxB i).quality ≤ 98 ∧
      2000 ≤ (stateAt enc minB maxB i).width := by
  obtain ⟨h1, h2, h3⟩ := stateAt_bounds enc minB maxB i
  exact ⟨by omega, h2, h3⟩

/-- C4: if iteration `i` encodes strictly below `minB` (for a well-formed
target range), then iteration `i + 1` uses a width at least as large and a
quality at least as large as iteration `i`'s. -/
theorem C4_undersized_direction (enc : Nat → Nat → List Nat) (minB maxB i : Nat)
    (hrange : minB ≤ maxB) (hsmall : sizeAt enc minB maxB i < minB) :
    (stateAt enc minB maxB i).width ≤ (stateAt enc minB maxB (i + 1)).width ∧
      (stateAt enc minB maxB i).quality ≤ (stateAt enc minB maxB (i + 1)).quality := by
  have hb := stateAt_bounds enc minB maxB i
  have h : stateAt enc minB maxB (i + 1)
      = stepState enc minB maxB (stateAt enc minB maxB i) := rfl
  rw [h]
  unfold stepState
  dsimp only
  rw [if_neg (by unfold sizeAt at hsmall; omega)]
  exact adjust_undersized minB maxB _ _ hb.2.1 hsmall hrange

/-- C4 witness: with the always-undersized source and target range `[1, 2]`,
iteration 1's width and quality are at least iteration 0's. -/
theorem C4_undersized_direction_witness :
    (stateAt encSmall 1 2 0).width ≤ (stateAt encSmall 1 2 1).width ∧
      (stateAt encSmall 1 2 0).quality ≤ (stateAt encSmall 1 2 1).quality :=
  C4_undersized_direction encSmall 1 2 0 (by decide) (by decide)

set_option maxRecDepth 4000 in
/-- C5 counterexample: with the always-oversized source and target range
`[1, 2]`, iteration 6 is oversized with quality 82 ≤ 85 and width 2050, but
iteration 7's width is 2000, not 2050 − 250 = 1800 — the 2000 floor clamp
truncates the step, so the oversized width adjustment is not always a
reduction by 250. -/
theorem C5_width_step_counterexample :
    2 < sizeAt encBig 1 2 6 ∧ (stateAt encBig 1 2 6).quality ≤ 85 ∧
      (stateAt encBig 1 2 6).width = 2050 ∧ (stateAt encBig 1 2 7).width = 2000 ∧
      (stateAt encBig 1 2 7).width ≠ (stateAt encBig 1 2 6).width - 250 := by
  decide

/-- C5 (amended): in every oversized iteration (for a well-formed target
range), if quality is above the 85 threshold then only quality changes,
reduced by 4, and width is untouched; only once quality is at or below 85
is width reduced instead — by 250, but clamped to the 2000 floor, so at
or near the floor the reduction is partial or absent.  Quality reduction
is thus always attempted before resolution reduction. -/
theorem C5_oversized_policy (enc : Nat → Nat → List Nat) (minB maxB i : Nat)
    (hrange : minB ≤ maxB) (hbig : maxB < sizeAt enc minB maxB i) :
    (85 < (stateAt enc minB maxB i).quality →
      (stateAt enc minB maxB (i + 1)).quality = (stateAt enc minB maxB i).quality - 4 ∧
        (stateAt enc minB maxB (i + 1)).width = (stateAt enc minB maxB i).width) ∧
    ((stateAt enc minB maxB i).quality ≤ 85 →
      (stateAt enc minB maxB (i + 1)).quality = (stateAt enc minB maxB i).quality ∧
        (stateAt enc minB maxB (i + 1)).width =
          (if (stateAt enc minB maxB i).width - 250 < 2000 then 2000
           else (stateAt enc minB maxB i).width - 250)) := by
  unfold sizeAt at hbig
  have hb := stateAt_bounds enc minB maxB i
  have h : stateAt enc minB maxB (i + 1)
      = stepState enc minB maxB (stateAt enc minB maxB i) := rfl
  rw [h]
  unfold stepState
  dsimp only
  rw [if_neg (by omega)]
  exact adjust_oversized minB maxB _ _ hb.1 hb.2.2 hbig hrange

/-- C5 witness: with the always-oversized source and target range `[1, 2]`,
iteration 0 has quality 94 > 85, and iteration 1 reduces quality by 4 while
leaving width unchanged. -/
theorem C5_oversized_policy_witness :
    (stateAt encBig 1 2 1).quality = (stateAt encBig 1 2 0).quality - 4 ∧
      (stateAt encBig 1 2 1).width = (stateAt encBig 1 2 0).width :=
  (C5_oversized_policy encBig 1 2 0 (by decide) (by decide)).1 (by decide)

/-- C6: if the encode at the starting width 2800 and quality 94 is already
in range, the operation succeeds after exactly one encode attempt and
returns that first encode with the unadjusted starting parameters. -/
theorem C6_first_iteration_success (enc : Nat → Nat → List Nat) (minB maxB : Nat)
    (h1 : minB ≤ (enc START_WIDTH START_QUALITY).length)
    (h2 : (enc START_WIDTH START_QUALITY).length ≤ maxB) :
    generateImage enc minB maxB =
      (Except.ok ⟨enc START_WIDTH START_QUALITY, START_WIDTH, START_QUALITY⟩, 1) := by
  unfold generateImage
  have hinit : initState.width = START_WIDTH ∧ initState.quality = START_QUALITY := ⟨rfl, rfl⟩
  rw [loopGo_break enc minB maxB (MAX_ITER - 1) initState
    (by rw [hinit.1, hinit.2]; exact ⟨h1, h2⟩)]
  dsimp only
  rw [if_neg (by rw [hinit.1, hinit.2]; omega)]
  rfl

/-- C6 witness: the one-byte source is in range for `[1, 2]` at the start
parameters, and the operation returns it after a single attempt. -/
theorem C6_first_iteration_success_witness :
    generateImage encOne 1 2 =
      (Except.ok ⟨encOne START_WIDTH START_QUALITY, START_WIDTH, START_QUALITY⟩, 1) :=
  C6_first_iteration_success encOne 1 2 (by decide) (by decide)

/-- C7: for every source and target range the search performs at most
`MAX_ITER = 25` encode attempts, and when every encode the source admits
exceeds `maxB` (the range is unreachable) the operation returns the
size-lock convergence error rather than looping forever. -/
theorem C7_termination_bound (enc : Nat → Nat → List Nat) (minB maxB : Nat) :
    (generateImage enc minB maxB).2 ≤ MAX_ITER ∧
      ((∀ w q, maxB < (enc w q).length) →
        (generateImage enc minB maxB).1 = Except.error sizeLockFailureResponse) := by
  constructor
  · unfold generateImage
    dsimp only
    have := loopGo_attempts enc minB maxB (MAX_ITER - 1) initState
    split <;> dsimp only <;> unfold MAX_ITER at * <;> omega
  · intro hall
    unfold generateImage
    dsimp only
    have := loopGo_oversized enc minB maxB hall (MAX_ITER - 1) initState
    rw [if_pos (by omega)]

/-- C7 witness: the always-oversized source terminates within 25 attempts
and yields the convergence error. -/
theorem C7_termination_bound_witness :
    (generateImage encBig 1 2).2 ≤ MAX_ITER ∧
      (generateImage encBig 1 2).1 = Except.error sizeLockFailureResponse :=
  ⟨(C7_termination_bound encBig 1 2).1,
    (C7_termination_bound encBig 1 2).2 (fun _ _ => by simp [encBig])⟩

/-- C8: the search is deterministic — two invocations with pointwise
identical encode behaviour and identical target bounds follow the same
sequence of `(width, quality)` attempts and produce identical outputs. -/
theorem C8_deterministic_search (enc enc' : Nat → Nat → List Nat)
    (minB minB' maxB maxB' : Nat)
    (hE : ∀ w q, enc w q = enc' w q) (hmin : minB = minB') (hmax : maxB = maxB') :
    (∀ i, stateAt enc minB maxB i = stateAt enc' minB' maxB' i) ∧
      generateImage enc minB maxB = generateImage enc' minB' maxB' := by
  have hfun : enc = enc' := funext fun w => funext fun q => hE w q
  subst hfun hmin hmax
  exact ⟨fun _ => rfl, rfl⟩

/-- C8 witness: instantiated at the always-oversized source and range
`[1, 2]`, the search path and output coincide with themselves. -/
theorem C8_deterministic_search_witness :
    stateAt encBig 1 2 3 = stateAt encBig 1 2 3 ∧
      generateImage encBig 1 2 = generateImage encBig 1 2 :=
  ⟨(C8_deterministic_search encBig encBig 1 1 2 2 (fun _ _ => rfl) rfl rfl).1 3,
    (C8_deterministic_search encBig encBig 1 1 2 2 (fun _ _ => rfl) rfl rfl).2⟩

/-- C9: the hidden stronger quality floor — starting from 94 with +2 steps
capped at 98 when undersized and −4 steps only while quality is above 85,
quality never drops below 82 in any reachable loop state, so the hard
80-clamp is unreachable for quality and quality stays in `[82, 98]`. -/
theorem C9_hidden_quality_floor (enc : Nat → Nat → List Nat) (minB maxB i : Nat) :
    82 ≤ (stateAt enc minB maxB i).quality ∧ (stateAt enc minB maxB i).quality ≤ 98 :=
  ⟨(stateAt_bounds enc minB maxB i).1, (stateAt_bounds enc minB maxB i).2.1⟩

/-- C10: on success, `finalWidth` and `finalQuality` in the response are
exactly the parameters that encoded the returned bytes: the loop breaks on
an in-range result before any adjustment, so the returned buffer equals the
encode at the reported parameters. -/
theorem C10_final_params_match (enc : Nat → Nat → List Nat) (minB maxB : Nat)
    (r : GenSuccess) (n : Nat)
    (h : generateImage enc minB maxB = (Except.ok r, n)) :
    r.imageBytes = enc r.finalWidth r.finalQuality := by
  unfold generateImage at h
  dsimp only at h
  split at h
  · exact absurd h (by simp)
  · rename_i hcond
    simp only [Prod.mk.injEq, Except.ok.injEq] at h
    obtain ⟨h1, -⟩ := h
    subst h1
    dsimp only
    exact loopGo_inrange_encodes enc minB maxB _ _ (by omega) (by omega)

/-- C10 witness: for the one-byte source the returned payload's bytes are
the encode at its reported final width and quality. -/
theorem C10_final_params_match_witness :
    (GenSuccess.mk [0] 2800 94).imageBytes =
      encOne (GenSuccess.mk [0] 2800 94).finalWidth (GenSuccess.mk [0] 2800 94).finalQuality :=
  C10_final_params_match encOne 1 2 (GenSuccess.mk [0] 2800 94) 1 rfl

end ModelStudio
